import Mathlib

/-
Verification of the TrustBridge escrow contract
(src/contracts/trustbridge_contract/trustbridge_escrow.rs).

Shallow embedding: account identifiers and balances are natural numbers;
the ink! `Mapping<u32, EscrowDetails>` is a function `Nat → Option EscrowDetails`;
the `u32` counter `next_escrow_id` is a `Nat` kept below `2 ^ 32`, with the
increment `self.next_escrow_id += 1` taken modulo `2 ^ 32` (release-mode
wrapping `u32` addition).  The host's balance-transfer primitive
`self.env().transfer` is an external collaborator and is modelled from the
spec as a ledger that succeeds exactly when the contract custodies enough.
-/

namespace Trustbridge

abbrev AccountId := Nat
abbrev Balance := Nat

/-- Width of the `u32` identifier space. -/
def U32_MOD : Nat := 2 ^ 32

/-- Mirrors `struct EscrowDetails` of the source. -/
structure EscrowDetails where
  amount : Balance
  owner : AccountId
  beneficiary : AccountId
  arbiter : AccountId
  is_active : Bool
  deriving DecidableEq

/-- Mirrors `enum Error` of the source. -/
inductive Error where
  | InsufficientFunds
  | NotAuthorized
  | EscrowNotFound
  | EscrowNotActive
  deriving DecidableEq

/-- The two `#[ink(event)]` payloads of the source. -/
inductive Event where
  | EscrowCreated (escrow_id : Nat) (amount : Balance)
  | FundsReleased (escrow_id : Nat) (amount : Balance)
  deriving DecidableEq

/-- Mirrors the `#[ink(storage)]` struct `TrustbridgeContract`. -/
structure TrustbridgeContract where
  escrows : Nat → Option EscrowDetails
  next_escrow_id : Nat
  admin : AccountId

/-- Mirrors the constructor `new`: empty mapping, counter 0, admin = caller. -/
def TrustbridgeContract.new (caller : AccountId) : TrustbridgeContract :=
  { escrows := fun _ => none, next_escrow_id := 0, admin := caller }

/-- Modelled from the spec: the external Value Transfer Ledger (spec section 6),
the host primitive behind `self.env().transfer(to, amount)`.
`contractBalance` is the value the registry currently custodies; a transfer
succeeds exactly when the custodied balance suffices, debiting the contract
and crediting the destination account. -/
structure Ledger where
  contractBalance : Balance
  balances : AccountId → Balance

def Ledger.transfer (l : Ledger) (dest : AccountId) (amount : Balance) : Option Ledger :=
  if amount ≤ l.contractBalance then
    some { contractBalance := l.contractBalance - amount
           balances := fun a => if a = dest then l.balances a + amount else l.balances a }
  else none

/-- Result, post-state, post-ledger and emitted events of one message call. -/
structure Outcome where
  result : Except Error Unit
  state : TrustbridgeContract
  ledger : Ledger
  events : List Event

/-- Mirrors `create_escrow` (source lines 62–83): the caller attaches
`transferred_value`, a fresh record is inserted at `next_escrow_id`, the
counter is incremented (wrapping `u32` addition) and `EscrowCreated` is
emitted; the call always returns `Ok(())`.  The attached value becomes
custodied by the contract. -/
def create_escrow (s : TrustbridgeContract) (l : Ledger) (caller : AccountId)
    (transferred_value : Balance) (beneficiary arbiter : AccountId) : Outcome :=
  let amount := transferred_value
  let escrow_id := s.next_escrow_id
  let escrow : EscrowDetails :=
    { amount := amount, owner := caller, beneficiary := beneficiary,
      arbiter := arbiter, is_active := true }
  { result := Except.ok ()
    state :=
      { escrows := fun k => if k = escrow_id then some escrow else s.escrows k
        next_escrow_id := (s.next_escrow_id + 1) % U32_MOD
        admin := s.admin }
    ledger := { l with contractBalance := l.contractBalance + amount }
    events := [Event.EscrowCreated escrow_id amount] }

/-- Mirrors `release_funds` (source lines 87–107): look the record up
(`EscrowNotFound` if absent), reject with `NotAuthorized` when the record is
inactive or the caller is not its arbiter, attempt the ledger transfer
(`InsufficientFunds` on failure), then re-insert the record with
`is_active = false` and emit `FundsReleased`. -/
def release_funds (s : TrustbridgeContract) (l : Ledger) (caller : AccountId)
    (escrow_id : Nat) : Outcome :=
  match s.escrows escrow_id with
  | none =>
      { result := Except.error Error.EscrowNotFound, state := s, ledger := l, events := [] }
  | some escrow =>
    if escrow.is_active = false ∨ caller ≠ escrow.arbiter then
      { result := Except.error Error.NotAuthorized, state := s, ledger := l, events := [] }
    else
      match l.transfer escrow.beneficiary escrow.amount with
      | none =>
          { result := Except.error Error.InsufficientFunds, state := s, ledger := l, events := [] }
      | some l2 =>
          { result := Except.ok ()
            state :=
              { s with escrows := fun k =>
                  if k = escrow_id then some { escrow with is_active := false }
                  else s.escrows k }
            ledger := l2
            events := [Event.FundsReleased escrow_id escrow.amount] }

/-- Mirrors `get_escrow` (source lines 111–113): a pure read of the mapping. -/
def get_escrow (s : TrustbridgeContract) (escrow_id : Nat) : Option EscrowDetails :=
  s.escrows escrow_id

/-- The three public messages of the contract, with their caller. -/
inductive Op where
  | create (caller : AccountId) (value : Balance) (beneficiary arbiter : AccountId)
  | release (caller : AccountId) (escrow_id : Nat)
  | query (caller : AccountId) (escrow_id : Nat)

/-- State-and-ledger effect of one message call; `get_escrow` takes `&self`
and mutates nothing. -/
def step (s : TrustbridgeContract) (l : Ledger) : Op → TrustbridgeContract × Ledger
  | Op.create c v b a => ((create_escrow s l c v b a).state, (create_escrow s l c v b a).ledger)
  | Op.release c i => ((release_funds s l c i).state, (release_funds s l c i).ledger)
  | Op.query _ _ => (s, l)

/-- One `create_escrow` request: caller identity, attached value, and the two
submitted identities. -/
structure CreateReq where
  caller : AccountId
  value : Balance
  beneficiary : AccountId
  arbiter : AccountId
  deriving DecidableEq

/-- The record `create_escrow` builds from a request. -/
def recordOf (r : CreateReq) : EscrowDetails :=
  { amount := r.value, owner := r.caller, beneficiary := r.beneficiary,
    arbiter := r.arbiter, is_active := true }

/-- Run a sequence of `create_escrow` calls, collecting all emitted events. -/
def runCreates (s : TrustbridgeContract) (l : Ledger) :
    List CreateReq → TrustbridgeContract × Ledger × List Event
  | [] => (s, l, [])
  | r :: rs =>
    let o := create_escrow s l r.caller r.value r.beneficiary r.arbiter
    let rest := runCreates o.state o.ledger rs
    (rest.1, rest.2.1, o.events ++ rest.2.2)

/-- Identifiers assigned by a sequence of creations, read off the
`EscrowCreated` events. -/
def assignedIds (s : TrustbridgeContract) (l : Ledger) (reqs : List CreateReq) : List Nat :=
  (runCreates s l reqs).2.2.filterMap (fun e =>
    match e with
    | Event.EscrowCreated i _ => some i
    | Event.FundsReleased _ _ => none)

/-- Concrete test record: 100 units, owner 1, beneficiary 2, arbiter 3. -/
def eA : EscrowDetails :=
  { amount := 100, owner := 1, beneficiary := 2, arbiter := 3, is_active := true }

/-- Concrete registry holding `eA` at identifier 0. -/
def sA : TrustbridgeContract :=
  { escrows := fun k => if k = 0 then some eA else none, next_escrow_id := 1, admin := 7 }

/-- Concrete ledger custodying exactly the 100 units of `eA`. -/
def lA : Ledger := { contractBalance := 100, balances := fun _ => 0 }

/-- Ledger after releasing `eA`: custody emptied, beneficiary 2 credited. -/
def lA2 : Ledger := { contractBalance := 0, balances := fun a => if a = 2 then 100 else 0 }

/-- Concrete ledger too poor to cover `eA`. -/
def lPoor : Ledger := { contractBalance := 50, balances := fun _ => 0 }

/-- Concrete creation request used by witnesses. -/
def rA : CreateReq := { caller := 4, value := 25, beneficiary := 5, arbiter := 6 }

/-- Second concrete creation request used by witnesses. -/
def rB : CreateReq := { caller := 8, value := 0, beneficiary := 9, arbiter := 1 }

/-- Concrete released (inactive) record matching `eA`. -/
def eInact : EscrowDetails :=
  { amount := 100, owner := 1, beneficiary := 2, arbiter := 3, is_active := false }

/-- Concrete registry holding the released record `eInact` at identifier 0. -/
def sInact : TrustbridgeContract :=
  { escrows := fun k => if k = 0 then some eInact else none, next_escrow_id := 1, admin := 7 }

/-- Concrete empty registry whose counter sits at the top of the `u32` range. -/
def sMax : TrustbridgeContract :=
  { escrows := fun _ => none, next_escrow_id := U32_MOD - 1, admin := 0 }

/-! ## Branch characterization lemmas -/

theorem transfer_some_spec (l : Ledger) (dest : AccountId) (amount : Balance) (l2 : Ledger)
    (h : Ledger.transfer l dest amount = some l2) :
    amount ≤ l.contractBalance ∧
    l2.contractBalance = l.contractBalance - amount ∧
    l2.balances dest = l.balances dest + amount ∧
    ∀ a, a ≠ dest → l2.balances a = l.balances a := by
  unfold Ledger.transfer at h
  by_cases hle : amount ≤ l.contractBalance
  · rw [if_pos hle] at h
    cases h
    refine ⟨hle, rfl, by simp, fun a ha => by simp [ha]⟩
  · rw [if_neg hle] at h
    cases h

theorem transfer_none_iff (l : Ledger) (dest : AccountId) (amount : Balance) :
    Ledger.transfer l dest amount = none ↔ l.contractBalance < amount := by
  unfold Ledger.transfer
  by_cases hle : amount ≤ l.contractBalance
  · simp [if_pos hle, Nat.not_lt_of_le hle]
  · simp [if_neg hle, Nat.lt_of_not_le hle]

theorem release_funds_not_found (s : TrustbridgeContract) (l : Ledger) (c : AccountId)
    (id : Nat) (h : s.escrows id = none) :
    release_funds s l c id =
      { result := Except.error Error.EscrowNotFound, state := s, ledger := l, events := [] } := by
  unfold release_funds
  rw [h]

theorem release_funds_not_auth (s : TrustbridgeContract) (l : Ledger) (c : AccountId)
    (id : Nat) (e : EscrowDetails) (h : s.escrows id = some e)
    (hc : e.is_active = false ∨ c ≠ e.arbiter) :
    release_funds s l c id =
      { result := Except.error Error.NotAuthorized, state := s, ledger := l, events := [] } := by
  unfold release_funds
  rw [h]
  simp only [if_pos hc]

theorem release_funds_no_funds (s : TrustbridgeContract) (l : Ledger) (c : AccountId)
    (id : Nat) (e : EscrowDetails) (h : s.escrows id = some e)
    (h2 : e.is_active = true) (h3 : c = e.arbiter)
    (h4 : Ledger.transfer l e.beneficiary e.amount = none) :
    release_funds s l c id =
      { result := Except.error Error.InsufficientFunds, state := s, ledger := l, events := [] } := by
  unfold release_funds
  rw [h]
  simp only [if_neg (show ¬(e.is_active = false ∨ c ≠ e.arbiter) by simp [h2, h3])]
  rw [h4]

theorem release_funds_ok (s : TrustbridgeContract) (l : Ledger) (c : AccountId)
    (id : Nat) (e : EscrowDetails) (l2 : Ledger) (h : s.escrows id = some e)
    (h2 : e.is_active = true) (h3 : c = e.arbiter)
    (h4 : Ledger.transfer l e.beneficiary e.amount = some l2) :
    release_funds s l c id =
      { result := Except.ok ()
        state :=
          { s with escrows := fun k =>
              if k = id then some { e with is_active := false } else s.escrows k }
        ledger := l2
        events := [Event.FundsReleased id e.amount] } := by
  unfold release_funds
  rw [h]
  simp only [if_neg (show ¬(e.is_active = false ∨ c ≠ e.arbiter) by simp [h2, h3])]
  rw [h4]

theorem release_funds_ok_inv (s : TrustbridgeContract) (l : Ledger) (c : AccountId) (id : Nat)
    (hok : (release_funds s l c id).result = Except.ok ()) :
    ∃ e l2, s.escrows id = some e ∧ e.is_active = true ∧ c = e.arbiter ∧
      Ledger.transfer l e.beneficiary e.amount = some l2 := by
  cases hl : s.escrows id with
  | none =>
    rw [release_funds_not_found s l c id hl] at hok
    cases hok
  | some e =>
    by_cases hcond : e.is_active = false ∨ c ≠ e.arbiter
    · rw [release_funds_not_auth s l c id e hl hcond] at hok
      cases hok
    · push_neg at hcond
      have h2 : e.is_active = true := by
        cases hb : e.is_active
        · exact absurd hb hcond.1
        · rfl
      cases ht : Ledger.transfer l e.beneficiary e.amount with
      | none =>
        rw [release_funds_no_funds s l c id e hl h2 hcond.2 ht] at hok
        cases hok
      | some l2 => exact ⟨e, l2, rfl, h2, hcond.2, ht⟩

theorem release_state_escrows (s : TrustbridgeContract) (l : Ledger) (c : AccountId)
    (id k : Nat) :
    (release_funds s l c id).state.escrows k = s.escrows k ∨
    (∃ e, s.escrows id = some e ∧ e.is_active = true ∧ k = id ∧
      (release_funds s l c id).state.escrows k = some { e with is_active := false }) := by
  cases hl : s.escrows id with
  | none => left; rw [release_funds_not_found s l c id hl]
  | some e =>
    by_cases hcond : e.is_active = false ∨ c ≠ e.arbiter
    · left; rw [release_funds_not_auth s l c id e hl hcond]
    · push_neg at hcond
      have h2 : e.is_active = true := by
        cases hb : e.is_active
        · exact absurd hb hcond.1
        · rfl
      cases ht : Ledger.transfer l e.beneficiary e.amount with
      | none => left; rw [release_funds_no_funds s l c id e hl h2 hcond.2 ht]
      | some l2 =>
        rw [release_funds_ok s l c id e l2 hl h2 hcond.2 ht]
        by_cases hk : k = id
        · right; exact ⟨e, rfl, h2, hk, by simp [hk]⟩
        · left; simp [hk]

/-! ## Claim theorems -/

/-- C1: for every escrow record that exists, is active, and whose arbiter equals
the caller, and for which the ledger transfer succeeds, `release_funds` returns
success, sets the record's `is_active` to `false`, transfers exactly the
record's `amount` to the record's `beneficiary`, and emits a `FundsReleased`
notification carrying the identifier and that amount. -/
theorem C1_release_success (s : TrustbridgeContract) (l : Ledger) (caller : AccountId)
    (id : Nat) (e : EscrowDetails) (l2 : Ledger)
    (h1 : s.escrows id = some e) (h2 : e.is_active = true) (h3 : caller = e.arbiter)
    (h4 : Ledger.transfer l e.beneficiary e.amount = some l2) :
    (release_funds s l caller id).result = Except.ok () ∧
    (release_funds s l caller id).state.escrows id = some { e with is_active := false } ∧
    (release_funds s l caller id).ledger = l2 ∧
    l2.balances e.beneficiary = l.balances e.beneficiary + e.amount ∧
    l2.contractBalance = l.contractBalance - e.amount ∧
    (∀ a, a ≠ e.beneficiary → l2.balances a = l.balances a) ∧
    (release_funds s l caller id).events = [Event.FundsReleased id e.amount] := by
  have heq := release_funds_ok s l caller id e l2 h1 h2 h3 h4
  obtain ⟨hle, hcb, hb, hoth⟩ := transfer_some_spec l e.beneficiary e.amount l2 h4
  rw [heq]
  exact ⟨rfl, by simp, rfl, hb, hcb, hoth, rfl⟩

/-- Witness for C1 on the concrete registry `sA`, ledger `lA`, arbiter 3. -/
theorem C1_witness :
    (release_funds sA lA 3 0).result = Except.ok () ∧
    (release_funds sA lA 3 0).state.escrows 0 = some { eA with is_active := false } ∧
    (release_funds sA lA 3 0).ledger = lA2 ∧
    lA2.balances eA.beneficiary = lA.balances eA.beneficiary + eA.amount ∧
    lA2.contractBalance = lA.contractBalance - eA.amount ∧
    (∀ a, a ≠ eA.beneficiary → lA2.balances a = lA.balances a) ∧
    (release_funds sA lA 3 0).events = [Event.FundsReleased 0 eA.amount] :=
  C1_release_success sA lA 3 0 eA lA2 rfl rfl rfl rfl

/-- C3: `release_funds` checks its preconditions in order — a missing record
gives `EscrowNotFound`; an inactive record or a non-arbiter caller gives
`NotAuthorized`; a failing ledger transfer gives `InsufficientFunds`; and the
declared error `EscrowNotActive` is never returned. -/
theorem C3_error_order (s : TrustbridgeContract) (l : Ledger) (caller : AccountId) (id : Nat) :
    (s.escrows id = none →
      (release_funds s l caller id).result = Except.error Error.EscrowNotFound) ∧
    (∀ e, s.escrows id = some e → (e.is_active = false ∨ caller ≠ e.arbiter) →
      (release_funds s l caller id).result = Except.error Error.NotAuthorized) ∧
    (∀ e, s.escrows id = some e → e.is_active = true → caller = e.arbiter →
      Ledger.transfer l e.beneficiary e.amount = none →
      (release_funds s l caller id).result = Except.error Error.InsufficientFunds) ∧
    (release_funds s l caller id).result ≠ Except.error Error.EscrowNotActive := by
  refine ⟨fun h => by rw [release_funds_not_found s l caller id h],
          fun e h hc => by rw [release_funds_not_auth s l caller id e h hc],
          fun e h h2 h3 h4 => by rw [release_funds_no_funds s l caller id e h h2 h3 h4],
          ?_⟩
  cases hl : s.escrows id with
  | none => rw [release_funds_not_found s l caller id hl]; simp
  | some e =>
    by_cases hcond : e.is_active = false ∨ caller ≠ e.arbiter
    · rw [release_funds_not_auth s l caller id e hl hcond]; simp
    · push_neg at hcond
      have h2 : e.is_active = true := by
        cases hb : e.is_active
        · exact absurd hb hcond.1
        · rfl
      cases ht : Ledger.transfer l e.beneficiary e.amount with
      | none => rw [release_funds_no_funds s l caller id e hl h2 hcond.2 ht]; simp
      | some l2 => rw [release_funds_ok s l caller id e l2 hl h2 hcond.2 ht]; simp

/-- Witness for C3: each error branch exercised on the concrete fixtures. -/
theorem C3_witness :
    (release_funds sA lA 3 5).result = Except.error Error.EscrowNotFound ∧
    (release_funds sA lA 4 0).result = Except.error Error.NotAuthorized ∧
    (release_funds sA lPoor 3 0).result = Except.error Error.InsufficientFunds ∧
    (release_funds sA lA 3 0).result ≠ Except.error Error.EscrowNotActive :=
  ⟨(C3_error_order sA lA 3 5).1 rfl,
   (C3_error_order sA lA 4 0).2.1 eA rfl (Or.inr (by decide)),
   (C3_error_order sA lPoor 3 0).2.2.1 eA rfl rfl rfl rfl,
   (C3_error_order sA lA 3 0).2.2.2⟩

/-- C4: `release_funds` is all-or-nothing — every erroring call leaves the
registry state, the ledger and the event log untouched. -/
theorem C4_error_leaves_state (s : TrustbridgeContract) (l : Ledger) (caller : AccountId)
    (id : Nat) (err : Error)
    (h : (release_funds s l caller id).result = Except.error err) :
    (release_funds s l caller id).state = s ∧
    (release_funds s l caller id).ledger = l ∧
    (release_funds s l caller id).events = [] := by
  cases hl : s.escrows id with
  | none => rw [release_funds_not_found s l caller id hl]; exact ⟨rfl, rfl, rfl⟩
  | some e =>
    by_cases hcond : e.is_active = false ∨ caller ≠ e.arbiter
    · rw [release_funds_not_auth s l caller id e hl hcond]; exact ⟨rfl, rfl, rfl⟩
    · push_neg at hcond
      have h2 : e.is_active = true := by
        cases hb : e.is_active
        · exact absurd hb hcond.1
        · rfl
      cases ht : Ledger.transfer l e.beneficiary e.amount with
      | none =>
        rw [release_funds_no_funds s l caller id e hl h2 hcond.2 ht]
        exact ⟨rfl, rfl, rfl⟩
      | some l2 =>
        rw [release_funds_ok s l caller id e l2 hl h2 hcond.2 ht] at h
        cases h

/-- Witness for C4: a `NotAuthorized` call on `sA` changes nothing. -/
theorem C4_witness :
    (release_funds sA lA 4 0).state = sA ∧
    (release_funds sA lA 4 0).ledger = lA ∧
    (release_funds sA lA 4 0).events = [] :=
  C4_error_leaves_state sA lA 4 0 Error.NotAuthorized rfl

/-- C8: `create_escrow` always succeeds — for every registry state, ledger,
caller, attached value and submitted identities it returns `Ok(())`. -/
theorem C8_create_always_succeeds (s : TrustbridgeContract) (l : Ledger) (caller : AccountId)
    (v : Balance) (b a : AccountId) :
    (create_escrow s l caller v b a).result = Except.ok () := rfl

/-- C2: release happens at most once — immediately after a successful
`release_funds` every further `release_funds` on the same identifier, by any
caller and under any ledger, returns `NotAuthorized` and moves no funds; any
`release_funds` on an already-inactive record likewise fails unchanged; and no
operation ever turns an inactive record active again (create writes only at
the fresh counter position, which holds no record). -/
theorem C2_release_at_most_once :
    (∀ s l (caller : AccountId) id,
      (release_funds s l caller id).result = Except.ok () →
      ∀ (caller2 : AccountId) l2,
        (release_funds (release_funds s l caller id).state l2 caller2 id).result
          = Except.error Error.NotAuthorized ∧
        (release_funds (release_funds s l caller id).state l2 caller2 id).state
          = (release_funds s l caller id).state ∧
        (release_funds (release_funds s l caller id).state l2 caller2 id).ledger = l2 ∧
        (release_funds (release_funds s l caller id).state l2 caller2 id).events = []) ∧
    (∀ s l (caller : AccountId) id e, s.escrows id = some e → e.is_active = false →
      release_funds s l caller id =
        { result := Except.error Error.NotAuthorized, state := s, ledger := l, events := [] }) ∧
    (∀ s l op k e e', s.escrows s.next_escrow_id = none → s.escrows k = some e →
      (step s l op).1.escrows k = some e' → e'.is_active = true → e.is_active = true) := by
  refine ⟨?_, ?_, ?_⟩
  · intro s l caller id hok caller2 l2
    obtain ⟨e, l2x, hl, h2, h3, ht⟩ := release_funds_ok_inv s l caller id hok
    have hlook : (release_funds s l caller id).state.escrows id
        = some { e with is_active := false } := by
      rw [release_funds_ok s l caller id e l2x hl h2 h3 ht]
      simp
    rw [release_funds_not_auth (release_funds s l caller id).state l2 caller2 id
      { e with is_active := false } hlook (Or.inl rfl)]
    exact ⟨rfl, rfl, rfl, rfl⟩
  · intro s l caller id e hl hin
    exact release_funds_not_auth s l caller id e hl (Or.inl hin)
  · intro s l op k e e' hfresh hk hstep hact
    cases op with
    | create c v b a =>
      have hne : k ≠ s.next_escrow_id := by
        intro hkeq
        rw [hkeq, hfresh] at hk
        cases hk
      simp only [step, create_escrow] at hstep
      rw [if_neg hne] at hstep
      rw [hk] at hstep
      cases hstep
      exact hact
    | release c i =>
      simp only [step] at hstep
      rcases release_state_escrows s l c i k with hcase | ⟨e0, hl0, hact0, hki, hupd⟩
      · rw [hcase, hk] at hstep
        cases hstep
        exact hact
      · rw [hupd] at hstep
        cases hstep
        cases hact
    | query c i =>
      simp only [step] at hstep
      rw [hk] at hstep
      cases hstep
      exact hact

/-- Witness for C2: releasing escrow 0 of `sA` succeeds; the repeat call fails
with `NotAuthorized` without moving funds; a release on the inactive registry
`sInact` fails unchanged; a creation on `sA` leaves record 0 active as before. -/
theorem C2_witness :
    ((release_funds (release_funds sA lA 3 0).state lA2 3 0).result
        = Except.error Error.NotAuthorized ∧
      (release_funds (release_funds sA lA 3 0).state lA2 3 0).state
        = (release_funds sA lA 3 0).state ∧
      (release_funds (release_funds sA lA 3 0).state lA2 3 0).ledger = lA2 ∧
      (release_funds (release_funds sA lA 3 0).state lA2 3 0).events = []) ∧
    (release_funds sInact lA 3 0 =
      { result := Except.error Error.NotAuthorized, state := sInact, ledger := lA,
        events := [] }) ∧
    eA.is_active = true :=
  ⟨C2_release_at_most_once.1 sA lA 3 0 rfl 3 lA2,
   C2_release_at_most_once.2.1 sInact lA 3 0 eInact rfl rfl,
   C2_release_at_most_once.2.2 sA lA (Op.create 4 25 5 6) 0 eA eA rfl rfl rfl rfl⟩

/-- C6: a record's `amount`, `owner`, `beneficiary` and `arbiter` are never
changed after creation — `create_escrow` (writing only at the fresh counter
position) and `release_funds` preserve every stored record's identity fields,
and a successful `release_funds` changes only the target record's `is_active`
flag, leaving all other records, the counter and the admin untouched. -/
theorem C6_immutable_fields :
    (∀ s l (c : AccountId) v (b a : AccountId) k e,
      s.escrows s.next_escrow_id = none → s.escrows k = some e →
      (create_escrow s l c v b a).state.escrows k = some e) ∧
    (∀ s l (c : AccountId) id k e, s.escrows k = some e →
      ∃ e', (release_funds s l c id).state.escrows k = some e' ∧
        e'.amount = e.amount ∧ e'.owner = e.owner ∧ e'.beneficiary = e.beneficiary ∧
        e'.arbiter = e.arbiter) ∧
    (∀ s l (c : AccountId) id, (release_funds s l c id).result = Except.ok () →
      (∀ k, k ≠ id → (release_funds s l c id).state.escrows k = s.escrows k) ∧
      (∃ e, s.escrows id = some e ∧
        (release_funds s l c id).state.escrows id = some { e with is_active := false }) ∧
      (release_funds s l c id).state.next_escrow_id = s.next_escrow_id ∧
      (release_funds s l c id).state.admin = s.admin) := by
  refine ⟨?_, ?_, ?_⟩
  · intro s l c v b a k e hfresh hk
    have hne : k ≠ s.next_escrow_id := by
      intro hkeq
      rw [hkeq, hfresh] at hk
      cases hk
    simp only [create_escrow]
    rw [if_neg hne]
    exact hk
  · intro s l c id k e hk
    rcases release_state_escrows s l c id k with hcase | ⟨e0, hl0, hact0, hki, hupd⟩
    · exact ⟨e, by rw [hcase, hk], rfl, rfl, rfl, rfl⟩
    · subst hki
      rw [hk] at hl0
      cases hl0
      exact ⟨{ e with is_active := false }, hupd, rfl, rfl, rfl, rfl⟩
  · intro s l c id hok
    obtain ⟨e, l2, hl, h2, h3, ht⟩ := release_funds_ok_inv s l c id hok
    have heq := release_funds_ok s l c id e l2 hl h2 h3 ht
    rw [heq]
    refine ⟨fun k hk => by simp [hk], ⟨e, hl, by simp⟩, rfl, rfl⟩

/-- Witness for C6 on the concrete fixtures: creation preserves record 0 of
`sA`; release preserves the identity fields of record 0; the successful
release of escrow 0 touches nothing but its `is_active` flag. -/
theorem C6_witness :
    (create_escrow sA lA 4 25 5 6).state.escrows 0 = some eA ∧
    (∃ e', (release_funds sA lA 3 0).state.escrows 0 = some e' ∧
      e'.amount = eA.amount ∧ e'.owner = eA.owner ∧ e'.beneficiary = eA.beneficiary ∧
      e'.arbiter = eA.arbiter) ∧
    ((∀ k, k ≠ 0 → (release_funds sA lA 3 0).state.escrows k = sA.escrows k) ∧
      (∃ e, sA.escrows 0 = some e ∧
        (release_funds sA lA 3 0).state.escrows 0 = some { e with is_active := false }) ∧
      (release_funds sA lA 3 0).state.next_escrow_id = sA.next_escrow_id ∧
      (release_funds sA lA 3 0).state.admin = sA.admin) :=
  ⟨C6_immutable_fields.1 sA lA 4 25 5 6 0 eA rfl rfl,
   C6_immutable_fields.2.1 sA lA 3 0 0 eA rfl,
   C6_immutable_fields.2.2 sA lA 3 0 rfl⟩

/-- C7: `get_escrow` returns the stored record when present and `none`
otherwise, never an error; it performs no authorization check (the query step
neither reads the caller nor distinguishes callers) and leaves the registry
state and the ledger unchanged. -/
theorem C7_get_escrow_total (s : TrustbridgeContract) (id : Nat) :
    (∀ e, s.escrows id = some e → get_escrow s id = some e) ∧
    (s.escrows id = none → get_escrow s id = none) ∧
    (∀ l (c : AccountId), step s l (Op.query c id) = (s, l)) ∧
    (∀ l (c c' : AccountId), step s l (Op.query c id) = step s l (Op.query c' id)) := by
  exact ⟨fun e he => he, fun he => he, fun l c => rfl, fun l c c' => rfl⟩

/-- Witness for C7: querying `sA` finds record 0, misses identifier 5, and
changes nothing whoever asks. -/
theorem C7_witness :
    get_escrow sA 0 = some eA ∧
    get_escrow { sA with escrows := fun _ => none } 5 = none ∧
    step sA lA (Op.query 9 0) = (sA, lA) ∧
    step sA lA (Op.query 9 0) = step sA lA (Op.query 4 0) :=
  ⟨(C7_get_escrow_total sA 0).1 eA rfl,
   (C7_get_escrow_total { sA with escrows := fun _ => none } 5).2.1 rfl,
   (C7_get_escrow_total sA 0).2.2.1 lA 9,
   (C7_get_escrow_total sA 0).2.2.2 lA 9 4⟩

/-- C9: zero-value escrows are accepted — `create_escrow` with attached value 0
creates an active record with `amount = 0`, and `release_funds` on such a
record by its arbiter follows the normal success path, transferring 0 (both
ledger balances unchanged) and deactivating the record. -/
theorem C9_zero_value :
    (∀ s l (c : AccountId) (b a : AccountId),
      (create_escrow s l c 0 b a).result = Except.ok () ∧
      (create_escrow s l c 0 b a).state.escrows s.next_escrow_id =
        some { amount := 0, owner := c, beneficiary := b, arbiter := a, is_active := true }) ∧
    (∀ s l (c : AccountId) id e, s.escrows id = some e → e.amount = 0 →
      e.is_active = true → c = e.arbiter →
      (release_funds s l c id).result = Except.ok () ∧
      (release_funds s l c id).state.escrows id = some { e with is_active := false } ∧
      (release_funds s l c id).ledger.balances e.beneficiary = l.balances e.beneficiary ∧
      (release_funds s l c id).ledger.contractBalance = l.contractBalance) := by
  constructor
  · intro s l c b a
    constructor
    · rfl
    · simp [create_escrow]
  · intro s l c id e hl hamt hact harb
    have ht : Ledger.transfer l e.beneficiary e.amount =
        some { contractBalance := l.contractBalance - e.amount
               balances := fun x =>
                 if x = e.beneficiary then l.balances x + e.amount else l.balances x } := by
      unfold Ledger.transfer
      rw [if_pos (by rw [hamt]; exact Nat.zero_le _)]
    have heq := release_funds_ok s l c id e _ hl hact harb ht
    rw [heq]
    refine ⟨rfl, by simp, by simp [hamt], by simp [hamt]⟩

/-- Witness for C9: a zero-value creation on `sA` by caller 4, then a release
of the resulting record by its arbiter 6, both on concrete fixtures. -/
theorem C9_witness :
    ((create_escrow sA lA 4 0 5 6).result = Except.ok () ∧
      (create_escrow sA lA 4 0 5 6).state.escrows sA.next_escrow_id =
        some { amount := 0, owner := 4, beneficiary := 5, arbiter := 6, is_active := true }) ∧
    ((release_funds (create_escrow sA lA 4 0 5 6).state lA 6 1).result = Except.ok () ∧
      (release_funds (create_escrow sA lA 4 0 5 6).state lA 6 1).state.escrows 1 =
        some { amount := 0, owner := 4, beneficiary := 5, arbiter := 6, is_active := false } ∧
      (release_funds (create_escrow sA lA 4 0 5 6).state lA 6 1).ledger.balances 5
        = lA.balances 5 ∧
      (release_funds (create_escrow sA lA 4 0 5 6).state lA 6 1).ledger.contractBalance
        = lA.contractBalance) :=
  ⟨C9_zero_value.1 sA lA 4 5 6,
   C9_zero_value.2 (create_escrow sA lA 4 0 5 6).state lA 6 1
     { amount := 0, owner := 4, beneficiary := 5, arbiter := 6, is_active := true }
     rfl rfl rfl rfl⟩

/-- C10: the identifier space is 32-bit — `create_escrow` advances the counter
by wrapping `u32` addition, so below `2 ^ 32 - 1` it strictly increases by
exactly one, it always stays below `2 ^ 32`, and from `2 ^ 32 - 1` it wraps to
0 (the point where identifier uniqueness would cease). -/
theorem C10_counter_u32 (s : TrustbridgeContract) (l : Ledger) (c : AccountId)
    (v : Balance) (b a : AccountId) :
    (create_escrow s l c v b a).state.next_escrow_id = (s.next_escrow_id + 1) % U32_MOD ∧
    (s.next_escrow_id < U32_MOD - 1 →
      (create_escrow s l c v b a).state.next_escrow_id = s.next_escrow_id + 1 ∧
      s.next_escrow_id < (create_escrow s l c v b a).state.next_escrow_id) ∧
    (s.next_escrow_id < U32_MOD →
      (create_escrow s l c v b a).state.next_escrow_id < U32_MOD) ∧
    (s.next_escrow_id = U32_MOD - 1 →
      (create_escrow s l c v b a).state.next_escrow_id = 0) := by
  have hM : U32_MOD = 4294967296 := by norm_num [U32_MOD]
  have hstep : (create_escrow s l c v b a).state.next_escrow_id
      = (s.next_escrow_id + 1) % U32_MOD := rfl
  refine ⟨hstep, fun h => ?_, fun _ => ?_, fun h => ?_⟩
  · have hlt : s.next_escrow_id + 1 < U32_MOD := by omega
    have : (s.next_escrow_id + 1) % U32_MOD = s.next_escrow_id + 1 :=
      Nat.mod_eq_of_lt hlt
    rw [hstep, this]
    omega
  · rw [hstep]
    exact Nat.mod_lt _ (by omega)
  · rw [hstep, h]
    have : U32_MOD - 1 + 1 = U32_MOD := by omega
    rw [this, Nat.mod_self]

/-- Witness for C10: the counter of `sA` (at 1) advances to 2, stays in range,
and the counter of `sMax` (at `2 ^ 32 - 1`) wraps to 0. -/
theorem C10_witness :
    ((create_escrow sA lA 4 25 5 6).state.next_escrow_id = 1 + 1 ∧
      sA.next_escrow_id < (create_escrow sA lA 4 25 5 6).state.next_escrow_id) ∧
    (create_escrow sA lA 4 25 5 6).state.next_escrow_id < U32_MOD ∧
    (create_escrow sMax lA 4 25 5 6).state.next_escrow_id = 0 :=
  ⟨(C10_counter_u32 sA lA 4 25 5 6).2.1 (by decide),
   (C10_counter_u32 sA lA 4 25 5 6).2.2.1 (by decide),
   (C10_counter_u32 sMax lA 4 25 5 6).2.2.2 rfl⟩

/-! ## Lemmas on sequences of creations -/

theorem runCreates_next_mod (reqs : List CreateReq) :
    ∀ s l, s.next_escrow_id < U32_MOD →
      (runCreates s l reqs).1.next_escrow_id
        = (s.next_escrow_id + reqs.length) % U32_MOD := by
  induction reqs with
  | nil =>
    intro s l h
    show s.next_escrow_id = (s.next_escrow_id + 0) % U32_MOD
    rw [Nat.add_zero, Nat.mod_eq_of_lt h]
  | cons r rs ih =>
    intro s l h
    show (runCreates (create_escrow s l r.caller r.value r.beneficiary r.arbiter).state
        (create_escrow s l r.caller r.value r.beneficiary r.arbiter).ledger
        rs).1.next_escrow_id = (s.next_escrow_id + (r :: rs).length) % U32_MOD
    rw [ih _ _ (Nat.mod_lt _ (by norm_num [U32_MOD]))]
    show ((s.next_escrow_id + 1) % U32_MOD + rs.length) % U32_MOD = _
    rw [Nat.mod_add_mod]
    congr 1
    simp only [List.length_cons]
    omega

theorem create_next_nowrap (s : TrustbridgeContract) (l : Ledger) (c : AccountId)
    (v : Balance) (b a : AccountId) (h : s.next_escrow_id + 1 < U32_MOD) :
    (create_escrow s l c v b a).state.next_escrow_id = s.next_escrow_id + 1 := by
  show (s.next_escrow_id + 1) % U32_MOD = s.next_escrow_id + 1
  exact Nat.mod_eq_of_lt h

theorem runCreates_next_nowrap (reqs : List CreateReq) (s : TrustbridgeContract) (l : Ledger)
    (h : s.next_escrow_id + reqs.length < U32_MOD) :
    (runCreates s l reqs).1.next_escrow_id = s.next_escrow_id + reqs.length := by
  rw [runCreates_next_mod reqs s l (by omega)]
  exact Nat.mod_eq_of_lt h

theorem runCreates_escrows_preserved (reqs : List CreateReq) :
    ∀ s l k, s.next_escrow_id + reqs.length < U32_MOD → k < s.next_escrow_id →
      (runCreates s l reqs).1.escrows k = s.escrows k := by
  induction reqs with
  | nil => intro s l k _ _; rfl
  | cons r rs ih =>
    intro s l k h hk
    simp only [List.length_cons] at h
    have hs' : (create_escrow s l r.caller r.value r.beneficiary r.arbiter).state.next_escrow_id
        = s.next_escrow_id + 1 :=
      create_next_nowrap s l r.caller r.value r.beneficiary r.arbiter (by omega)
    show (runCreates (create_escrow s l r.caller r.value r.beneficiary r.arbiter).state
        (create_escrow s l r.caller r.value r.beneficiary r.arbiter).ledger
        rs).1.escrows k = s.escrows k
    rw [ih _ _ k (by rw [hs']; omega) (by rw [hs']; omega)]
    show (if k = s.next_escrow_id then _ else s.escrows k) = s.escrows k
    rw [if_neg (by omega)]

theorem runCreates_escrows_new (reqs : List CreateReq) :
    ∀ s l i (hi : i < reqs.length), s.next_escrow_id + reqs.length < U32_MOD →
      (runCreates s l reqs).1.escrows (s.next_escrow_id + i)
        = some (recordOf (reqs.get ⟨i, hi⟩)) := by
  induction reqs with
  | nil => intro s l i hi; exact absurd hi (by simp)
  | cons r rs ih =>
    intro s l i hi h
    simp only [List.length_cons] at h
    have hs' : (create_escrow s l r.caller r.value r.beneficiary r.arbiter).state.next_escrow_id
        = s.next_escrow_id + 1 :=
      create_next_nowrap s l r.caller r.value r.beneficiary r.arbiter (by omega)
    show (runCreates (create_escrow s l r.caller r.value r.beneficiary r.arbiter).state
        (create_escrow s l r.caller r.value r.beneficiary r.arbiter).ledger
        rs).1.escrows (s.next_escrow_id + i)
        = some (recordOf ((r :: rs).get ⟨i, hi⟩))
    cases i with
    | zero =>
      rw [runCreates_escrows_preserved rs _ _ _ (by rw [hs']; omega) (by rw [hs']; omega)]
      show (if s.next_escrow_id + 0 = s.next_escrow_id then some _ else _)
        = some (recordOf r)
      rw [if_pos (Nat.add_zero _)]
      rfl
    | succ j =>
      have hj : j < rs.length := by
        simp only [List.length_cons] at hi
        omega
      have := ih (create_escrow s l r.caller r.value r.beneficiary r.arbiter).state
        (create_escrow s l r.caller r.value r.beneficiary r.arbiter).ledger j hj
        (by rw [hs']; omega)
      rw [hs'] at this
      have harith : s.next_escrow_id + (j + 1) = s.next_escrow_id + 1 + j := by omega
      rw [harith, this]
      rfl

theorem assignedIds_cons (s : TrustbridgeContract) (l : Ledger) (r : CreateReq)
    (rs : List CreateReq) :
    assignedIds s l (r :: rs) = s.next_escrow_id ::
      assignedIds (create_escrow s l r.caller r.value r.beneficiary r.arbiter).state
        (create_escrow s l r.caller r.value r.beneficiary r.arbiter).ledger rs := rfl

theorem assignedIds_eq (reqs : List CreateReq) :
    ∀ s l, s.next_escrow_id < U32_MOD →
      assignedIds s l reqs
        = (List.range reqs.length).map (fun i => (s.next_escrow_id + i) % U32_MOD) := by
  induction reqs with
  | nil => intro s l _; rfl
  | cons r rs ih =>
    intro s l h
    rw [assignedIds_cons]
    rw [ih _ _ (Nat.mod_lt _ (by norm_num [U32_MOD]))]
    simp only [List.length_cons, List.range_succ_eq_map, List.map_cons, List.map_map]
    congr 1
    · rw [Nat.add_zero, Nat.mod_eq_of_lt h]
    · apply List.map_congr_left
      intro i _
      show ((s.next_escrow_id + 1) % U32_MOD + i) % U32_MOD = _
      rw [Nat.mod_add_mod]
      simp only [Function.comp_apply]
      congr 1
      omega

theorem assignedIds_nowrap (reqs : List CreateReq) (s : TrustbridgeContract) (l : Ledger)
    (h : s.next_escrow_id + reqs.length < U32_MOD) :
    assignedIds s l reqs = (List.range reqs.length).map (fun i => s.next_escrow_id + i) := by
  rw [assignedIds_eq reqs s l (by omega)]
  apply List.map_congr_left
  intro i hi
  rw [List.mem_range] at hi
  exact Nat.mod_eq_of_lt (by omega)

/-- C5 (amended): for every fresh registry and every sequence of fewer than
`2 ^ 32` creation calls, the calls assign the distinct sequential identifiers
`0, 1, …, N-1` in order, the counter ends at `N`, and each identifier holds a
record with exactly the submitted beneficiary, arbiter and attached amount,
the calling identity as owner, and `is_active = true`. -/
theorem C5_sequential_creation (admin : AccountId) (l : Ledger) (reqs : List CreateReq)
    (h : reqs.length < U32_MOD) :
    assignedIds (TrustbridgeContract.new admin) l reqs = List.range reqs.length ∧
    (assignedIds (TrustbridgeContract.new admin) l reqs).Nodup ∧
    (runCreates (TrustbridgeContract.new admin) l reqs).1.next_escrow_id = reqs.length ∧
    ∀ i (hi : i < reqs.length),
      get_escrow (runCreates (TrustbridgeContract.new admin) l reqs).1 i
        = some (recordOf (reqs.get ⟨i, hi⟩)) := by
  have h0 : (TrustbridgeContract.new admin).next_escrow_id = 0 := rfl
  have hids : assignedIds (TrustbridgeContract.new admin) l reqs = List.range reqs.length := by
    rw [assignedIds_nowrap reqs _ l (by rw [h0]; omega)]
    simp only [h0, Nat.zero_add]
    exact List.map_id _
  refine ⟨hids, by rw [hids]; exact List.nodup_range _, ?_, ?_⟩
  · rw [runCreates_next_nowrap reqs _ l (by rw [h0]; omega), h0, Nat.zero_add]
  · intro i hi
    have hrec := runCreates_escrows_new reqs (TrustbridgeContract.new admin) l i hi
      (by rw [h0]; omega)
    rw [h0, Nat.zero_add] at hrec
    exact hrec

/-- Witness for C5: two creations on a fresh registry assign identifiers 0 and
1 and store exactly the submitted data. -/
theorem C5_witness :
    assignedIds (TrustbridgeContract.new 0) lA [rA, rB] = List.range 2 ∧
    (assignedIds (TrustbridgeContract.new 0) lA [rA, rB]).Nodup ∧
    (runCreates (TrustbridgeContract.new 0) lA [rA, rB]).1.next_escrow_id = 2 ∧
    ∀ i (hi : i < [rA, rB].length),
      get_escrow (runCreates (TrustbridgeContract.new 0) lA [rA, rB]).1 i
        = some (recordOf ([rA, rB].get ⟨i, hi⟩)) :=
  C5_sequential_creation 0 lA [rA, rB] (by decide)

/-- Counterexample to C5 as stated: with `N = 2 ^ 32 + 1` creation calls on a
fresh registry the `u32` counter wraps, the identifier 0 is assigned twice
(to the first and the last call), so the assigned identifiers are not
distinct. -/
theorem C5_counterexample :
    ¬ (assignedIds (TrustbridgeContract.new 0) lA
        (List.replicate (U32_MOD + 1) rA)).Nodup := by
  intro hnodup
  rw [assignedIds_eq (List.replicate (U32_MOD + 1) rA) (TrustbridgeContract.new 0) lA
    (by decide), List.length_replicate] at hnodup
  have hinj := List.nodup_iff_injective_get.mp hnodup
  have h1 : ((List.range (U32_MOD + 1)).map
      (fun i => ((TrustbridgeContract.new 0).next_escrow_id + i) % U32_MOD)).get
      ⟨0, by rw [List.length_map, List.length_range]; exact Nat.succ_pos _⟩ = 0 := by
    rw [List.get_eq_getElem, List.getElem_map, List.getElem_range]
    decide
  have h2 : ((List.range (U32_MOD + 1)).map
      (fun i => ((TrustbridgeContract.new 0).next_escrow_id + i) % U32_MOD)).get
      ⟨U32_MOD, by rw [List.length_map, List.length_range]; exact Nat.lt_succ_self _⟩ = 0 := by
    rw [List.get_eq_getElem, List.getElem_map, List.getElem_range]
    decide
  have hfin := hinj (h1.trans h2.symm)
  have hval : (0 : Nat) = U32_MOD := congrArg Fin.val hfin
  exact absurd hval (by decide)

end Trustbridge
